import Mathlib

/-!
Verification of the metric transformation component
(`newrelic/internal/transform/metric.go` of the
newrelic-eheinlein/opentelemetry-exporter-go repository).

The component converts OpenTelemetry metric aggregation records into
New Relic telemetry metrics.  We embed the Go code shallowly:

* Go `map[string]interface{}` becomes an association list `AttrMap` whose
  insertion overwrites any existing binding of the same key (Go map
  assignment semantics).  Since a Go map is unordered, any association
  list representation with overwrite-on-insert is a faithful model; we
  keep the freshly inserted binding at the head.
* The external `metric.Number` union (a raw 64-bit payload read either as
  a signed integer or as an IEEE-754 double, selected by a number kind)
  is modelled by a structure carrying both views, with `float64`
  abstracted as an exact rational; `CoerceToFloat64` selects the view by
  kind, as the external library does.
* Go functions returning `(telemetry.Metric, error)` become functions
  returning `Option Metric × Option GoError`, mirroring the nil/non-nil
  pairs of the source.
* Aggregation accessors (`Min`, `Max`, `Sum`, `Count`) are modelled as
  the result pairs they would return; `minMaxSumCountValues`
  additionally records, in order, which accessors the control flow of
  the source actually invokes, so that short-circuiting is observable.
-/

namespace Transform

/-- Kind of the numeric payload carried by a descriptor.  Modelled from the
spec: the number-kind enumeration (integer or floating-point) of the
external metric API consumed by this component. -/
inductive NumberKind where
  | int64Kind : NumberKind
  | float64Kind : NumberKind
deriving DecidableEq, Repr

/-- Modelled from the spec: the external tagged numeric union
`metric.Number` consumed by this component, carrying a raw payload that
can be read as a signed integer (`asInt64`) or as a floating-point value
(`asFloat64`, abstracted here as an exact rational). -/
structure Number where
  asInt64 : Int
  asFloat64 : ℚ
deriving DecidableEq, Repr

/-- Modelled from the spec: `CoerceToFloat64` of the external number
union selects the reading of the payload according to the declared
number kind; integer values are widened, floating-point values pass
through. -/
def Number.coerceToFloat64 (n : Number) : NumberKind → ℚ
  | NumberKind.int64Kind => (n.asInt64 : ℚ)
  | NumberKind.float64Kind => n.asFloat64

/-- A Go error value: either the distinguished `ErrUnimplementedAgg` of
the source or some other error (such as one produced by an aggregation
accessor). -/
inductive GoError where
  | unimplementedAgg : GoError
  | errorMsg (msg : String) : GoError
deriving DecidableEq, Repr

/-- Primitive attribute values as produced by `Value.AsInterface()` of
the label API: string, bool or numeric. -/
inductive AttrValue where
  | str (s : String)
  | boolVal (b : Bool)
  | intVal (i : Int)
  | floatVal (q : ℚ)
deriving DecidableEq, Repr

/-- Model of the Go `map[string]interface{}` attribute mapping: an
association list where insertion overwrites. -/
def AttrMap : Type := List (String × AttrValue)
deriving DecidableEq, Repr

/-- The empty attribute map (`make(map[string]interface{}, n)`). -/
def AttrMap.empty : AttrMap := []

/-- Map assignment `attrs[k] = v`: overwrites any existing binding of
`k`. -/
def AttrMap.insert (m : AttrMap) (k : String) (v : AttrValue) : AttrMap :=
  (k, v) :: List.filter (fun p => p.1 != k) m

/-- Map read `attrs[k]`. -/
def AttrMap.lookup : AttrMap → String → Option AttrValue
  | [], _ => none
  | p :: t, k => if p.1 = k then some p.2 else AttrMap.lookup t k

/-- The keys of an attribute map. -/
def AttrMap.keys (m : AttrMap) : List String := List.map Prod.fst m

/-- Instrument descriptor: name, unit, description and number kind, as
read by the source through `desc.Name()`, `desc.Unit()`,
`desc.Description()` and `desc.NumberKind()`.  Absent optional fields
are the empty string, as in Go. -/
structure Descriptor where
  name : String
  unit : String
  description : String
  numberKind : NumberKind
deriving DecidableEq, Repr

/-- Modelled from the spec: the fixed service-name attribute key, a
constant defined elsewhere in the repository (only `metric.go` is in
scope); the spec fixes it as the service-name identifier of the wire
contract. -/
def serviceNameAttrKey : String := "service.name"

/-- Modelled from the spec: the fixed provenance key naming the
exporting instrumentation provider (`instrumentation.provider`). -/
def instrumentationProviderAttrKey : String := "instrumentation.provider"

/-- Modelled from the spec: the fixed constant value bound to the
instrumentation-provider provenance key. -/
def instrumentationProviderAttrValue : String := "opentelemetry"

/-- Modelled from the spec: the fixed provenance key naming the
collector. -/
def collectorNameAttrKey : String := "collector.name"

/-- Modelled from the spec: the fixed constant value bound to the
collector-name provenance key. -/
def collectorNameAttrValue : String := "newrelic-opentelemetry-exporter"

/-- The pre-sizing count `n` computed at the top of `attributes` in the
source: `2 + labels.Len() + res.Len()`, plus one for each of unit,
description (descriptor non-nil only) and service when present.  It only
sizes the allocation and has no effect on the content of the map. -/
def attributesSize (service : String) (res : List (String × AttrValue))
    (desc : Option Descriptor) (labels : List (String × AttrValue)) : Nat :=
  let n := 2 + labels.length + res.length
  let n :=
    match desc with
    | some d =>
      let n := if d.unit != "" then n + 1 else n
      if d.description != "" then n + 1 else n
    | none => n
  if service != "" then n + 1 else n

/-- The `attributes` function of the source: merges resource entries,
point labels, descriptor-derived entries (unit, description), the
service entry and the two fixed provenance entries into one flat map,
in that order, each insertion overwriting earlier bindings of the same
key.  The resource and the label set are modelled as the (finite,
ordered, key-unique) sequences their iterators yield; a nil descriptor
is `none`. -/
def attributes (service : String) (res : List (String × AttrValue))
    (desc : Option Descriptor) (labels : List (String × AttrValue)) : AttrMap :=
  let attrs := AttrMap.empty
  let attrs := List.foldl (fun m kv => AttrMap.insert m kv.1 kv.2) attrs res
  let attrs := List.foldl (fun m kv => AttrMap.insert m kv.1 kv.2) attrs labels
  let attrs :=
    match desc with
    | some d =>
      let attrs := if d.unit != "" then AttrMap.insert attrs "unit" (AttrValue.str d.unit) else attrs
      if d.description != "" then AttrMap.insert attrs "description" (AttrValue.str d.description) else attrs
    | none => attrs
  let attrs := if service != "" then AttrMap.insert attrs serviceNameAttrKey (AttrValue.str service) else attrs
  let attrs := AttrMap.insert attrs instrumentationProviderAttrKey (AttrValue.str instrumentationProviderAttrValue)
  AttrMap.insert attrs collectorNameAttrKey (AttrValue.str collectorNameAttrValue)

/-- The New Relic telemetry metric shapes produced by the component:
`telemetry.Count` and `telemetry.Summary` (float64 fields abstracted as
rationals). -/
inductive Metric where
  | count (name : String) (attributes : AttrMap) (value : ℚ)
  | summary (name : String) (attributes : AttrMap) (count sum min max : ℚ)
deriving DecidableEq, Repr

/-- A Sum aggregation value: `Sum()` returns a number together with an
optional error, modelled as the pair it would return. -/
structure SumAgg where
  sumR : Number × Option GoError
deriving DecidableEq, Repr

/-- A MinMaxSumCount aggregation value: the result pairs of its four
accessors `Min()`, `Max()`, `Sum()` and `Count()`. -/
structure MMSCAgg where
  minR : Number × Option GoError
  maxR : Number × Option GoError
  sumR : Number × Option GoError
  countR : Int × Option GoError
deriving DecidableEq, Repr

/-- The dynamic aggregation value held by a record, as seen by the type
switch of the source: the `MinMaxSumCount` view when the dynamic type
implements that interface, and the `Sum` view when it implements that
one.  A value may expose both accessor sets, either, or neither. -/
structure Aggregation where
  asMinMaxSumCount : Option MMSCAgg
  asSum : Option SumAgg
deriving DecidableEq, Repr

/-- An export record: descriptor, labels and aggregation, as read
through `record.Descriptor()`, `record.Labels()` and
`record.Aggregation()`. -/
structure Record where
  descriptor : Descriptor
  labels : List (String × AttrValue)
  aggregation : Aggregation
deriving DecidableEq, Repr

/-- The `sum` converter of the source: transforms a Sum aggregation into
a Count metric, or propagates the extraction failure with no metric. -/
def sum (desc : Descriptor) (attrs : AttrMap) (a : SumAgg) :
    Option Metric × Option GoError :=
  let (sumV, err) := a.sumR
  match err with
  | some e => (none, some e)
  | none =>
    (some (Metric.count desc.name attrs (sumV.coerceToFloat64 desc.numberKind)), none)

/-- The `minMaxSumCountValues` function of the source: extracts min,
max, sum and count in that order, returning on the first failure with
the remaining named results at their zero values.  The second component
records, in order, the accessors the control flow invokes, so that
short-circuiting is observable in the model. -/
def minMaxSumCountValues (a : MMSCAgg) :
    (Number × Number × Number × Int × Option GoError) × List String :=
  let (minV, err) := a.minR
  match err with
  | some e => ((minV, ⟨0, 0⟩, ⟨0, 0⟩, 0, some e), ["Min"])
  | none =>
    let (maxV, err) := a.maxR
    match err with
    | some e => ((minV, maxV, ⟨0, 0⟩, 0, some e), ["Min", "Max"])
    | none =>
      let (sumV, err) := a.sumR
      match err with
      | some e => ((minV, maxV, sumV, 0, some e), ["Min", "Max", "Sum"])
      | none =>
        let (countV, err) := a.countR
        match err with
        | some e => ((minV, maxV, sumV, countV, some e), ["Min", "Max", "Sum", "Count"])
        | none => ((minV, maxV, sumV, countV, none), ["Min", "Max", "Sum", "Count"])

/-- The `minMaxSumCount` converter of the source: transforms a
MinMaxSumCount aggregation into a Summary metric, or propagates the
first extraction failure with no metric.  `float64(count)` is the exact
cast of the integer count. -/
def minMaxSumCount (desc : Descriptor) (attrs : AttrMap) (a : MMSCAgg) :
    Option Metric × Option GoError :=
  let ((minV, maxV, sumV, countV, err), _) := minMaxSumCountValues a
  match err with
  | some e => (none, some e)
  | none =>
    (some (Metric.summary desc.name attrs ((countV : ℚ))
      (sumV.coerceToFloat64 desc.numberKind)
      (minV.coerceToFloat64 desc.numberKind)
      (maxV.coerceToFloat64 desc.numberKind)), none)

/-- The exported `Record` function of the source (named `transformRecord`
in the spec): builds the merged attributes, then switches on the dynamic
type of the aggregation — `MinMaxSumCount` first, then `Sum` — and
returns `(nil, ErrUnimplementedAgg)` when neither matches. -/
def transformRecord (service : String) (res : List (String × AttrValue))
    (record : Record) : Option Metric × Option GoError :=
  let desc := record.descriptor
  let attrs := attributes service res (some desc) record.labels
  match record.aggregation.asMinMaxSumCount with
  | some a => minMaxSumCount desc attrs a
  | none =>
    match record.aggregation.asSum with
    | some a => sum desc attrs a
    | none => (none, some GoError.unimplementedAgg)

/-- The descriptor-derived write sequence of `attributes`: the unit and
description entries it inserts, in order (empty for a nil descriptor or
empty fields). -/
def descWrites : Option Descriptor → List (String × AttrValue)
  | some d =>
    (if d.unit != "" then [("unit", AttrValue.str d.unit)] else []) ++
      (if d.description != "" then [("description", AttrValue.str d.description)] else [])
  | none => []

/-- The service write sequence of `attributes`: the service-name entry
when the service string is non-empty. -/
def serviceWrites (service : String) : List (String × AttrValue) :=
  if service != "" then [(serviceNameAttrKey, AttrValue.str service)] else []

/-- The provenance write sequence of `attributes`: the two fixed
provenance entries, always inserted last. -/
def provenanceWrites : List (String × AttrValue) :=
  [(instrumentationProviderAttrKey, AttrValue.str instrumentationProviderAttrValue),
   (collectorNameAttrKey, AttrValue.str collectorNameAttrValue)]

/-- The full ordered sequence of map writes performed by `attributes`:
resource entries, then point labels, then descriptor-derived entries,
then the service entry, then the provenance entries. -/
def attrWrites (service : String) (res : List (String × AttrValue))
    (desc : Option Descriptor) (labels : List (String × AttrValue)) :
    List (String × AttrValue) :=
  res ++ labels ++ descWrites desc ++ serviceWrites service ++ provenanceWrites

/-- The value the last writer of `k` in the sequence `l` binds it to,
if any writer binds it at all. -/
def lookupLast : List (String × AttrValue) → String → Option AttrValue
  | [], _ => none
  | p :: t, k =>
    match lookupLast t k with
    | some v => some v
    | none => if p.1 = k then some p.2 else none

theorem AttrMap.lookup_filter_ne (m : AttrMap) (k k' : String) (h : k' ≠ k) :
    AttrMap.lookup (List.filter (fun p => p.1 != k) m) k' = AttrMap.lookup m k' := by
  induction m with
  | nil => rfl
  | cons p t ih =>
    by_cases hp : p.1 = k
    · have : (p.1 != k) = false := by simp [hp]
      simp only [List.filter, this, AttrMap.lookup]
      rw [ih]
      have : ¬ p.1 = k' := by
        intro hk
        exact h (by rw [← hk, hp])
      simp [AttrMap.lookup, this]
    · have : (p.1 != k) = true := by simp [hp]
      simp only [List.filter, this, AttrMap.lookup]
      by_cases hpk : p.1 = k'
      · simp [hpk]
      · simp [hpk, ih]

theorem AttrMap.lookup_insert (m : AttrMap) (k k' : String) (v : AttrValue) :
    AttrMap.lookup (AttrMap.insert m k v) k' =
      if k = k' then some v else AttrMap.lookup m k' := by
  by_cases h : k = k'
  · simp [AttrMap.insert, AttrMap.lookup, h]
  · have h' : k' ≠ k := fun hk => h hk.symm
    simp only [AttrMap.insert, AttrMap.lookup, if_neg h]
    rw [AttrMap.lookup_filter_ne m k k' h']

theorem AttrMap.keys_insert_nodup (m : AttrMap) (k : String) (v : AttrValue)
    (h : (AttrMap.keys m).Nodup) : (AttrMap.keys (AttrMap.insert m k v)).Nodup := by
  have hsub : List.Sublist (List.filter (fun p => p.1 != k) m) m := List.filter_sublist m
  have hkeys : List.Sublist (AttrMap.keys (List.filter (fun p => p.1 != k) m)) (AttrMap.keys m) :=
    List.Sublist.map Prod.fst hsub
  have hnd : (AttrMap.keys (List.filter (fun p => p.1 != k) m)).Nodup := h.sublist hkeys
  have hnotmem : k ∉ AttrMap.keys (List.filter (fun p => p.1 != k) m) := by
    intro hmem
    rcases List.mem_map.mp hmem with ⟨p, hp, hpk⟩
    have := List.of_mem_filter hp
    rw [hpk] at this
    simp at this
  exact List.nodup_cons.mpr ⟨hnotmem, hnd⟩

theorem AttrMap.foldl_insert_lookup (l : List (String × AttrValue)) (m : AttrMap)
    (k : String) :
    AttrMap.lookup (List.foldl (fun m kv => AttrMap.insert m kv.1 kv.2) m l) k =
      match lookupLast l k with
      | some v => some v
      | none => AttrMap.lookup m k := by
  induction l generalizing m with
  | nil => rfl
  | cons p t ih =>
    simp only [List.foldl, lookupLast]
    rw [ih]
    cases hlt : lookupLast t k with
    | some v => rfl
    | none =>
      rw [AttrMap.lookup_insert]
      by_cases hp : p.1 = k
      · simp [hp]
      · simp [hp]

theorem AttrMap.foldl_insert_keys_nodup (l : List (String × AttrValue)) (m : AttrMap)
    (h : (AttrMap.keys m).Nodup) :
    (AttrMap.keys (List.foldl (fun m kv => AttrMap.insert m kv.1 kv.2) m l)).Nodup := by
  induction l generalizing m with
  | nil => exact h
  | cons p t ih =>
    exact ih _ (AttrMap.keys_insert_nodup m p.1 p.2 h)

theorem attributes_eq_foldl (service : String) (res : List (String × AttrValue))
    (desc : Option Descriptor) (labels : List (String × AttrValue)) :
    attributes service res desc labels =
      List.foldl (fun m kv => AttrMap.insert m kv.1 kv.2) AttrMap.empty
        (attrWrites service res desc labels) := by
  simp only [attributes, attrWrites, descWrites, serviceWrites, provenanceWrites,
    List.foldl_append]
  cases desc with
  | none =>
    by_cases hs : service != ""
    · simp [hs, List.foldl]
    · simp [hs, List.foldl]
  | some d =>
    by_cases hu : d.unit != "" <;> by_cases hd : d.description != "" <;>
      by_cases hs : service != "" <;> simp [hu, hd, hs, List.foldl]

/-- The content of `attributes` is last-writer-wins over its ordered
write sequence. -/
theorem attributes_lookup (service : String) (res : List (String × AttrValue))
    (desc : Option Descriptor) (labels : List (String × AttrValue)) (k : String) :
    AttrMap.lookup (attributes service res desc labels) k =
      lookupLast (attrWrites service res desc labels) k := by
  rw [attributes_eq_foldl]
  rw [AttrMap.foldl_insert_lookup]
  cases h : lookupLast (attrWrites service res desc labels) k with
  | some v => rfl
  | none => rfl

/-- The keys of the map built by `attributes` are pairwise distinct. -/
theorem attributes_keys_nodup (service : String) (res : List (String × AttrValue))
    (desc : Option Descriptor) (labels : List (String × AttrValue)) :
    (AttrMap.keys (attributes service res desc labels)).Nodup := by
  rw [attributes_eq_foldl]
  exact AttrMap.foldl_insert_keys_nodup _ _ (by simp [AttrMap.empty, AttrMap.keys])

theorem lookupLast_append (l₁ l₂ : List (String × AttrValue)) (k : String) :
    lookupLast (l₁ ++ l₂) k =
      match lookupLast l₂ k with
      | some v => some v
      | none => lookupLast l₁ k := by
  induction l₁ with
  | nil =>
    cases h : lookupLast l₂ k <;> simp [lookupLast, h]
  | cons p t ih =>
    have hc : (p :: t) ++ l₂ = p :: (t ++ l₂) := rfl
    rw [hc]
    show (match lookupLast (t ++ l₂) k with
      | some v => some v
      | none => if p.1 = k then some p.2 else none) = _
    rw [ih]
    cases h : lookupLast l₂ k with
    | some v => rfl
    | none => rfl

theorem lookupLast_mem_isSome (l : List (String × AttrValue)) (k : String)
    (h : k ∈ List.map Prod.fst l) : (lookupLast l k).isSome := by
  induction l with
  | nil => simp at h
  | cons p t ih =>
    simp only [lookupLast]
    cases hlt : lookupLast t k with
    | some v => rfl
    | none =>
      rcases List.mem_map.mp h with ⟨q, hq, hqk⟩
      rcases List.mem_cons.mp hq with hq1 | hq2
      · subst hq1
        simp [hqk]
      · have := ih (List.mem_map.mpr ⟨q, hq2, hqk⟩)
        rw [hlt] at this
        simp at this

theorem lookupLast_append_right (l₁ l₂ : List (String × AttrValue)) (k : String)
    (v : AttrValue) (h : lookupLast l₂ k = some v) :
    lookupLast (l₁ ++ l₂) k = some v := by
  rw [lookupLast_append, h]

theorem lookupLast_not_mem (l : List (String × AttrValue)) (k : String)
    (h : k ∉ List.map Prod.fst l) : lookupLast l k = none := by
  induction l with
  | nil => rfl
  | cons p t ih =>
    have hk : ¬ p.1 = k := by
      intro hp
      exact h (List.mem_map.mpr ⟨p, List.mem_cons_self p t, hp⟩)
    have ht : k ∉ List.map Prod.fst t := by
      intro hm
      rcases List.mem_map.mp hm with ⟨q, hq, hqk⟩
      exact h (List.mem_map.mpr ⟨q, List.mem_cons_of_mem p hq, hqk⟩)
    simp [lookupLast, ih ht, hk]

/-- C1: for every service string, resource, descriptor and label set, the
attribute mapping built by `attributes` is a flat map with pairwise
distinct string keys; for every key its final value is the one bound by
the last writer in the ordered write sequence resource entries, then
point labels, then descriptor-derived entries, then the service entry,
then the provenance entries; and in particular, whenever a key is bound
by a label, the resource segment no longer influences its final value
(a label value always overwrites a resource value for the same key). -/
theorem attributes_last_writer_c1 (service : String)
    (res : List (String × AttrValue)) (desc : Option Descriptor)
    (labels : List (String × AttrValue)) :
    (AttrMap.keys (attributes service res desc labels)).Nodup ∧
    (∀ k, AttrMap.lookup (attributes service res desc labels) k =
      lookupLast (attrWrites service res desc labels) k) ∧
    (∀ k, k ∈ List.map Prod.fst labels →
      AttrMap.lookup (attributes service res desc labels) k =
        lookupLast (labels ++ descWrites desc ++ serviceWrites service ++ provenanceWrites) k) := by
  refine ⟨attributes_keys_nodup service res desc labels,
    attributes_lookup service res desc labels, ?_⟩
  intro k hk
  rw [attributes_lookup]
  unfold attrWrites
  rw [List.append_assoc res labels, List.append_assoc res, List.append_assoc res,
    lookupLast_append]
  have hl : (lookupLast labels k).isSome := lookupLast_mem_isSome labels k hk
  have hsome : (lookupLast (labels ++ descWrites desc ++ serviceWrites service ++ provenanceWrites) k).isSome := by
    rw [lookupLast_append]
    cases h1 : lookupLast provenanceWrites k with
    | some v => rfl
    | none =>
      rw [lookupLast_append]
      cases h2 : lookupLast (serviceWrites service) k with
      | some v => rfl
      | none =>
        rw [lookupLast_append]
        cases h3 : lookupLast (descWrites desc) k with
        | some v => rfl
        | none => exact hl
  cases hv : lookupLast (labels ++ descWrites desc ++ serviceWrites service ++ provenanceWrites) k with
  | some v => rfl
  | none => rw [hv] at hsome; simp at hsome

/-- Witness for C1 on the worked example of the spec: with resource
`a=r1, b=r2` and labels `a=l1, c=l3`, the key `a` is bound by a label,
so its final value ignores the resource segment; evaluating both sides
shows the label value `l1` wins. -/
theorem attributes_last_writer_c1_witness :
    AttrMap.lookup (attributes "svc" [("a", AttrValue.str "r1"), ("b", AttrValue.str "r2")]
        none [("a", AttrValue.str "l1"), ("c", AttrValue.str "l3")]) "a" =
      some (AttrValue.str "l1") := by
  have h := (attributes_last_writer_c1 "svc"
    [("a", AttrValue.str "r1"), ("b", AttrValue.str "r2")] none
    [("a", AttrValue.str "l1"), ("c", AttrValue.str "l3")]).2.2 "a" (by decide)
  rw [h]
  decide

/-- C2: the dispatcher routes by the concrete kind of the aggregation:
a record whose aggregation exposes the min-max-sum-count accessor set is
delegated to the MinMaxSumCount converter, and a record whose
aggregation exposes only the sum accessor set is delegated to the Sum
converter; the result always equals the output of exactly one converter,
including for an aggregation exposing both accessor sets (which the
type switch sends to the MinMaxSumCount converter alone). -/
theorem transformRecord_dispatch_c2 (service : String)
    (res : List (String × AttrValue)) (record : Record) :
    (∀ a, record.aggregation.asMinMaxSumCount = some a →
      transformRecord service res record =
        minMaxSumCount record.descriptor
          (attributes service res (some record.descriptor) record.labels) a) ∧
    (record.aggregation.asMinMaxSumCount = none →
      ∀ a, record.aggregation.asSum = some a →
        transformRecord service res record =
          sum record.descriptor
            (attributes service res (some record.descriptor) record.labels) a) := by
  constructor
  · intro a ha
    simp [transformRecord, ha]
  · intro hm a ha
    simp [transformRecord, hm, ha]

/-- Witness for C2: a record whose aggregation exposes both accessor
sets goes to the MinMaxSumCount converter, and a record exposing only
the sum accessor set goes to the Sum converter. -/
theorem transformRecord_dispatch_c2_witness :
    transformRecord "" [] ⟨⟨"m", "", "", NumberKind.int64Kind⟩, [],
        ⟨some ⟨(⟨1, 1⟩, none), (⟨10, 10⟩, none), (⟨20, 20⟩, none), (4, none)⟩,
          some ⟨(⟨20, 20⟩, none)⟩⟩⟩ =
      minMaxSumCount ⟨"m", "", "", NumberKind.int64Kind⟩
        (attributes "" [] (some ⟨"m", "", "", NumberKind.int64Kind⟩) [])
        ⟨(⟨1, 1⟩, none), (⟨10, 10⟩, none), (⟨20, 20⟩, none), (4, none)⟩ ∧
    transformRecord "" [] ⟨⟨"m", "", "", NumberKind.int64Kind⟩, [],
        ⟨none, some ⟨(⟨20, 20⟩, none)⟩⟩⟩ =
      sum ⟨"m", "", "", NumberKind.int64Kind⟩
        (attributes "" [] (some ⟨"m", "", "", NumberKind.int64Kind⟩) [])
        ⟨(⟨20, 20⟩, none)⟩ :=
  ⟨(transformRecord_dispatch_c2 "" [] _).1 _ rfl,
   (transformRecord_dispatch_c2 "" [] _).2 rfl _ rfl⟩

/-- C3: for every record whose aggregation exposes neither supported
accessor set, `transformRecord` returns the nil metric together with
`ErrUnimplementedAgg`; no default, zero or partial metric is produced. -/
theorem transformRecord_unimplemented_c3 (service : String)
    (res : List (String × AttrValue)) (record : Record)
    (h1 : record.aggregation.asMinMaxSumCount = none)
    (h2 : record.aggregation.asSum = none) :
    transformRecord service res record = (none, some GoError.unimplementedAgg) := by
  simp [transformRecord, h1, h2]

/-- Witness for C3 on a concrete record with an unsupported
aggregation. -/
theorem transformRecord_unimplemented_c3_witness :
    transformRecord "" [] ⟨⟨"m", "", "", NumberKind.int64Kind⟩, [], ⟨none, none⟩⟩ =
      (none, some GoError.unimplementedAgg) :=
  transformRecord_unimplemented_c3 "" []
    ⟨⟨"m", "", "", NumberKind.int64Kind⟩, [], ⟨none, none⟩⟩ rfl rfl

/-- C4: `minMaxSumCountValues` invokes the accessors in the order min,
max, sum, count; the first failure stops the remaining invocations (the
recorded invocation list ends at the failing accessor), the exact
failure is returned unchanged, and `minMaxSumCount` then produces no
metric at all. -/
theorem minMaxSumCount_short_circuit_c4 (a : MMSCAgg) :
    (∀ e, a.minR.2 = some e →
      minMaxSumCountValues a = ((a.minR.1, ⟨0, 0⟩, ⟨0, 0⟩, 0, some e), ["Min"]) ∧
      ∀ desc attrs, minMaxSumCount desc attrs a = (none, some e)) ∧
    (a.minR.2 = none → ∀ e, a.maxR.2 = some e →
      minMaxSumCountValues a = ((a.minR.1, a.maxR.1, ⟨0, 0⟩, 0, some e), ["Min", "Max"]) ∧
      ∀ desc attrs, minMaxSumCount desc attrs a = (none, some e)) ∧
    (a.minR.2 = none → a.maxR.2 = none → ∀ e, a.sumR.2 = some e →
      minMaxSumCountValues a =
        ((a.minR.1, a.maxR.1, a.sumR.1, 0, some e), ["Min", "Max", "Sum"]) ∧
      ∀ desc attrs, minMaxSumCount desc attrs a = (none, some e)) ∧
    (a.minR.2 = none → a.maxR.2 = none → a.sumR.2 = none → ∀ e, a.countR.2 = some e →
      minMaxSumCountValues a =
        ((a.minR.1, a.maxR.1, a.sumR.1, a.countR.1, some e),
          ["Min", "Max", "Sum", "Count"]) ∧
      ∀ desc attrs, minMaxSumCount desc attrs a = (none, some e)) := by
  rcases a with ⟨⟨minV, minE⟩, ⟨maxV, maxE⟩, ⟨sumV, sumE⟩, ⟨countV, countE⟩⟩
  refine ⟨?_, ?_, ?_, ?_⟩
  · intro e he
    simp only at he
    subst he
    constructor
    · simp [minMaxSumCountValues]
    · intro desc attrs
      simp [minMaxSumCount, minMaxSumCountValues]
  · intro hmin e he
    simp only at hmin he
    subst hmin
    subst he
    constructor
    · simp [minMaxSumCountValues]
    · intro desc attrs
      simp [minMaxSumCount, minMaxSumCountValues]
  · intro hmin hmax e he
    simp only at hmin hmax he
    subst hmin
    subst hmax
    subst he
    constructor
    · simp [minMaxSumCountValues]
    · intro desc attrs
      simp [minMaxSumCount, minMaxSumCountValues]
  · intro hmin hmax hsum e he
    simp only at hmin hmax hsum he
    subst hmin
    subst hmax
    subst hsum
    subst he
    constructor
    · simp [minMaxSumCountValues]
    · intro desc attrs
      simp [minMaxSumCount, minMaxSumCountValues]

/-- Witness for C4: a MinMaxSumCount aggregation whose `Min()` fails
invokes only `Min`, propagates that exact failure, and yields no
metric. -/
theorem minMaxSumCount_short_circuit_c4_witness :
    minMaxSumCountValues ⟨(⟨0, 0⟩, some (GoError.errorMsg "no data")),
        (⟨0, 0⟩, none), (⟨0, 0⟩, none), (0, none)⟩ =
      ((⟨0, 0⟩, ⟨0, 0⟩, ⟨0, 0⟩, 0, some (GoError.errorMsg "no data")), ["Min"]) ∧
    minMaxSumCount ⟨"m", "", "", NumberKind.int64Kind⟩ AttrMap.empty
      ⟨(⟨0, 0⟩, some (GoError.errorMsg "no data")),
        (⟨0, 0⟩, none), (⟨0, 0⟩, none), (0, none)⟩ =
      (none, some (GoError.errorMsg "no data")) := by
  have h := (minMaxSumCount_short_circuit_c4
    ⟨(⟨0, 0⟩, some (GoError.errorMsg "no data")),
      (⟨0, 0⟩, none), (⟨0, 0⟩, none), (0, none)⟩).1
    (GoError.errorMsg "no data") rfl
  exact ⟨h.1, h.2 _ _⟩

/-- C5: for a record dispatched to the Sum converter, a successful
`Sum()` yields a Count metric named after the descriptor, carrying the
merged attribute mapping and the extracted sum coerced by the declared
number kind; a failing `Sum()` propagates that exact failure with no
metric. -/
theorem sum_record_c5 (service : String) (res : List (String × AttrValue))
    (record : Record) (a : SumAgg)
    (hm : record.aggregation.asMinMaxSumCount = none)
    (hs : record.aggregation.asSum = some a) :
    (a.sumR.2 = none →
      transformRecord service res record =
        (some (Metric.count record.descriptor.name
          (attributes service res (some record.descriptor) record.labels)
          (Number.coerceToFloat64 a.sumR.1 record.descriptor.numberKind)), none)) ∧
    (∀ e, a.sumR.2 = some e →
      transformRecord service res record = (none, some e)) := by
  rcases a with ⟨⟨sumV, sumE⟩⟩
  cases sumE with
  | none =>
    constructor
    · intro _
      simp [transformRecord, hm, hs, sum]
    · intro e he
      simp at he
  | some e0 =>
    constructor
    · intro h
      simp at h
    · intro e he
      simp only at he
      have he2 : e0 = e := by simpa using he
      subst he2
      simp [transformRecord, hm, hs, sum]

/-- Witness for C5: a record named `requests` with floating-point kind
and a sum aggregation whose `Sum()` yields 42.5 produces the
corresponding Count metric with value 42.5. -/
theorem sum_record_c5_witness :
    transformRecord "svc" [] ⟨⟨"requests", "", "", NumberKind.float64Kind⟩, [],
        ⟨none, some ⟨(⟨42, (85 : ℚ) / 2⟩, none)⟩⟩⟩ =
      (some (Metric.count "requests"
        (attributes "svc" [] (some ⟨"requests", "", "", NumberKind.float64Kind⟩) [])
        ((85 : ℚ) / 2)), none) := by
  have h := (sum_record_c5 "svc" []
    ⟨⟨"requests", "", "", NumberKind.float64Kind⟩, [],
      ⟨none, some ⟨(⟨42, (85 : ℚ) / 2⟩, none)⟩⟩⟩
    ⟨(⟨42, (85 : ℚ) / 2⟩, none)⟩ rfl rfl).1 rfl
  rw [h]
  rfl

/-- C6: for a record dispatched to the MinMaxSumCount converter whose
four extractions all succeed, the result is a Summary metric named
after the descriptor, carrying the merged attributes, whose min, max
and sum are coerced by the declared number kind while the count is the
direct cast of its native integer value. -/
theorem minMaxSumCount_success_c6 (service : String)
    (res : List (String × AttrValue)) (record : Record) (a : MMSCAgg)
    (hm : record.aggregation.asMinMaxSumCount = some a)
    (h1 : a.minR.2 = none) (h2 : a.maxR.2 = none)
    (h3 : a.sumR.2 = none) (h4 : a.countR.2 = none) :
    transformRecord service res record =
      (some (Metric.summary record.descriptor.name
        (attributes service res (some record.descriptor) record.labels)
        ((a.countR.1 : ℚ))
        (Number.coerceToFloat64 a.sumR.1 record.descriptor.numberKind)
        (Number.coerceToFloat64 a.minR.1 record.descriptor.numberKind)
        (Number.coerceToFloat64 a.maxR.1 record.descriptor.numberKind)), none) := by
  rcases a with ⟨⟨minV, minE⟩, ⟨maxV, maxE⟩, ⟨sumV, sumE⟩, ⟨countV, countE⟩⟩
  simp only at h1 h2 h3 h4
  subst h1
  subst h2
  subst h3
  subst h4
  simp [transformRecord, hm, minMaxSumCount, minMaxSumCountValues]

/-- Witness for C6: min=1, max=10, sum=20, count=4 yield a Summary
metric with exactly those four floating-point field values. -/
theorem minMaxSumCount_success_c6_witness :
    transformRecord "svc" [] ⟨⟨"lat", "", "", NumberKind.int64Kind⟩, [],
        ⟨some ⟨(⟨1, 1⟩, none), (⟨10, 10⟩, none), (⟨20, 20⟩, none), (4, none)⟩, none⟩⟩ =
      (some (Metric.summary "lat"
        (attributes "svc" [] (some ⟨"lat", "", "", NumberKind.int64Kind⟩) [])
        (4 : ℚ) (20 : ℚ) (1 : ℚ) (10 : ℚ)), none) := by
  have h := minMaxSumCount_success_c6 "svc" []
    ⟨⟨"lat", "", "", NumberKind.int64Kind⟩, [],
      ⟨some ⟨(⟨1, 1⟩, none), (⟨10, 10⟩, none), (⟨20, 20⟩, none), (4, none)⟩, none⟩⟩
    ⟨(⟨1, 1⟩, none), (⟨10, 10⟩, none), (⟨20, 20⟩, none), (4, none)⟩
    rfl rfl rfl rfl rfl
  rw [h]
  norm_num [Number.coerceToFloat64]

theorem lookupLast_append_none (l₁ l₂ : List (String × AttrValue)) (k : String)
    (h : lookupLast l₂ k = none) : lookupLast (l₁ ++ l₂) k = lookupLast l₁ k := by
  rw [lookupLast_append, h]

theorem lookupLast_descWrites_service (desc : Option Descriptor) :
    lookupLast (descWrites desc) serviceNameAttrKey = none := by
  cases desc with
  | none => rfl
  | some d =>
    unfold descWrites
    by_cases hu : d.unit != "" <;> by_cases hd : d.description != "" <;>
      simp [hu, hd, lookupLast, serviceNameAttrKey]

/-- C7: whatever the service string, resource, descriptor and labels —
even when they reuse the provenance key names — the mapping built by
`attributes` binds the two fixed provenance keys to their fixed constant
values, since they are inserted last. -/
theorem attributes_provenance_c7 (service : String)
    (res : List (String × AttrValue)) (desc : Option Descriptor)
    (labels : List (String × AttrValue)) :
    AttrMap.lookup (attributes service res desc labels) instrumentationProviderAttrKey =
      some (AttrValue.str instrumentationProviderAttrValue) ∧
    AttrMap.lookup (attributes service res desc labels) collectorNameAttrKey =
      some (AttrValue.str collectorNameAttrValue) := by
  constructor
  · rw [attributes_lookup]
    unfold attrWrites
    exact lookupLast_append_right _ _ _ _ (by decide)
  · rw [attributes_lookup]
    unfold attrWrites
    exact lookupLast_append_right _ _ _ _ (by decide)

/-- Counterexample for C8 as stated: with an empty service string but a
caller-supplied label reusing the service-name key, the service-name key
is present in the output mapping, so it is not absent for every call
with empty service. -/
theorem attributes_service_c8_counterexample :
    AttrMap.lookup (attributes "" [] none [(serviceNameAttrKey, AttrValue.str "x")])
      serviceNameAttrKey = some (AttrValue.str "x") := by
  decide

/-- C8 (amended): the builder itself adds a service-name entry exactly
when the service string is non-empty, bound to that exact string; with
an empty service string the key is absent provided no resource entry or
label supplies it (a caller-supplied entry under that key passes
through). -/
theorem attributes_service_c8 (service : String)
    (res : List (String × AttrValue)) (desc : Option Descriptor)
    (labels : List (String × AttrValue)) :
    (service = "" → serviceNameAttrKey ∉ List.map Prod.fst res →
      serviceNameAttrKey ∉ List.map Prod.fst labels →
      AttrMap.lookup (attributes service res desc labels) serviceNameAttrKey = none) ∧
    (service ≠ "" →
      AttrMap.lookup (attributes service res desc labels) serviceNameAttrKey =
        some (AttrValue.str service)) := by
  constructor
  · intro hs hres hlab
    subst hs
    rw [attributes_lookup]
    unfold attrWrites
    rw [lookupLast_append_none _ _ _ (by decide)]
    rw [show serviceWrites "" = ([] : List (String × AttrValue)) from rfl, List.append_nil]
    rw [lookupLast_append_none _ _ _ (lookupLast_descWrites_service desc)]
    rw [lookupLast_append_none _ _ _ (lookupLast_not_mem labels _ hlab)]
    exact lookupLast_not_mem res _ hres
  · intro hs
    rw [attributes_lookup]
    unfold attrWrites
    rw [lookupLast_append_none _ _ _ (by decide)]
    refine lookupLast_append_right _ _ _ _ ?_
    simp [serviceWrites, hs, lookupLast]

/-- Witness for C8 (amended): with no resource and no labels, an empty
service leaves the service-name key absent, and the service string
`checkout-api` appears under the service-name key with exactly that
value. -/
theorem attributes_service_c8_witness :
    AttrMap.lookup (attributes "" [] none []) serviceNameAttrKey = none ∧
    AttrMap.lookup (attributes "checkout-api" [] none []) serviceNameAttrKey =
      some (AttrValue.str "checkout-api") :=
  ⟨(attributes_service_c8 "" [] none []).1 rfl (by decide) (by decide),
   (attributes_service_c8 "checkout-api" [] none []).2 (by decide)⟩

/-- C9: for every record with a supported aggregation kind,
`transformRecord` returns exactly one of a metric or an error: either a
metric with a nil error, or a nil metric with an error, never both and
never neither. -/
theorem transformRecord_exclusive_c9 (service : String)
    (res : List (String × AttrValue)) (record : Record)
    (h : record.aggregation.asMinMaxSumCount.isSome = true ∨
      record.aggregation.asSum.isSome = true) :
    ((transformRecord service res record).1.isSome = true ∧
      (transformRecord service res record).2 = none) ∨
    ((transformRecord service res record).1 = none ∧
      (transformRecord service res record).2.isSome = true) := by
  rcases record with ⟨desc, labels, ⟨mmsc, sumA⟩⟩
  cases mmsc with
  | some a =>
    rcases a with ⟨⟨minV, minE⟩, ⟨maxV, maxE⟩, ⟨sumV, sumE⟩, ⟨countV, countE⟩⟩
    cases minE <;> cases maxE <;> cases sumE <;> cases countE <;>
      simp [transformRecord, minMaxSumCount, minMaxSumCountValues]
  | none =>
    cases sumA with
    | some a =>
      rcases a with ⟨⟨sumV, sumE⟩⟩
      cases sumE <;> simp [transformRecord, sum]
    | none =>
      simp at h

/-- Witness for C9 on a concrete record with a sum aggregation. -/
theorem transformRecord_exclusive_c9_witness :
    ((transformRecord "" [] ⟨⟨"m", "", "", NumberKind.int64Kind⟩, [],
        ⟨none, some ⟨(⟨7, 7⟩, none)⟩⟩⟩).1.isSome = true ∧
      (transformRecord "" [] ⟨⟨"m", "", "", NumberKind.int64Kind⟩, [],
        ⟨none, some ⟨(⟨7, 7⟩, none)⟩⟩⟩).2 = none) ∨
    ((transformRecord "" [] ⟨⟨"m", "", "", NumberKind.int64Kind⟩, [],
        ⟨none, some ⟨(⟨7, 7⟩, none)⟩⟩⟩).1 = none ∧
      (transformRecord "" [] ⟨⟨"m", "", "", NumberKind.int64Kind⟩, [],
        ⟨none, some ⟨(⟨7, 7⟩, none)⟩⟩⟩).2.isSome = true) :=
  transformRecord_exclusive_c9 "" []
    ⟨⟨"m", "", "", NumberKind.int64Kind⟩, [], ⟨none, some ⟨(⟨7, 7⟩, none)⟩⟩⟩
    (Or.inr rfl)

/-- C10: `attributes` is total for a nil descriptor: the pre-sizing
count simply omits the unit and description increments, and the
resulting mapping is the last-writer merge of resource entries, labels,
the service entry and the provenance entries, with no descriptor-derived
entries and no failure. -/
theorem attributes_nil_descriptor_c10 (service : String)
    (res : List (String × AttrValue)) (labels : List (String × AttrValue)) :
    attributesSize service res none labels =
      (if service != "" then 2 + labels.length + res.length + 1
        else 2 + labels.length + res.length) ∧
    (∀ k, AttrMap.lookup (attributes service res none labels) k =
      lookupLast (res ++ labels ++ serviceWrites service ++ provenanceWrites) k) := by
  constructor
  · rfl
  · intro k
    rw [attributes_lookup]
    unfold attrWrites
    rw [show descWrites none = ([] : List (String × AttrValue)) from rfl, List.append_nil]

end Transform
